import Mathlib

/-
  Verification development for the openai-relay service (src/index.ts).

  The definitions below are a shallow embedding of the job pipeline and the
  /dub segment-synthesis pipeline of src/index.ts.  JavaScript numbers that
  the code only compares and adds are modelled as Int/Nat; thrown values are
  modelled by an explicit error record; provider calls are modelled by
  oracles supplied as function arguments.
-/

set_option linter.unusedVariables false
set_option maxRecDepth 100000

namespace OpenAIRelay

/-! ## JavaScript-ish error values

The retry classifier in src/index.ts (extractStatus / shouldRetrySegmentError)
inspects a thrown error value dynamically.  We model exactly the fields it
reads. -/

/-- A JavaScript value sitting in a status-like or code-like field: a finite
number, a non-finite number (NaN or Infinity), a string, or some other
truthy object.  An absent (undefined or null) field is modelled by wrapping
in Option. -/
inductive JsStatusVal where
  | num (n : Int)
  | nanOrInf
  | str (s : String)
  | objVal
  deriving DecidableEq, Repr

/-- The observable shape of a thrown error value: the three status slots read
by extractStatus (error.status, error.response.status, error.cause.status),
the message, the code field, error.response.data (already serialized, as only
its JSON.stringify image is observed) and a string rendering modelling
String(error). -/
structure JsError where
  status : Option JsStatusVal := none
  responseStatus : Option JsStatusVal := none
  causeStatus : Option JsStatusVal := none
  message : Option String := none
  code : Option JsStatusVal := none
  responseData : Option String := none
  stringRep : String := ""
  deriving DecidableEq, Repr

/-- Whitespace trim on both ends, modelling String.prototype.trim (the
strings in play only use ASCII whitespace); stated over the character list
so that proofs and kernel evaluation go through. -/
def trimStr (s : String) : String :=
  String.mk ((((s.toList).dropWhile Char.isWhitespace).reverse.dropWhile
    Char.isWhitespace).reverse)

/-- Digits at the front of a character list. -/
def digitRun (cs : List Char) : List Char := cs.takeWhile Char.isDigit

/-- Decimal value of a digit list. -/
def digitsToNat (cs : List Char) : Nat :=
  cs.foldl (fun a c => a * 10 + (c.toNat - 48)) 0

/-- JavaScript Number.parseInt with radix 10: skip leading whitespace, read
an optional sign and then a non-empty run of decimal digits; NaN (modelled as
none) when no digit is found. -/
def parseIntJS (s : String) : Option Int :=
  let cs := s.toList.dropWhile Char.isWhitespace
  match cs with
  | '-' :: rest =>
      let ds := digitRun rest
      if ds.isEmpty then none else some (-(digitsToNat ds : Int))
  | '+' :: rest =>
      let ds := digitRun rest
      if ds.isEmpty then none else some ((digitsToNat ds : Int))
  | _ =>
      let ds := digitRun cs
      if ds.isEmpty then none else some ((digitsToNat ds : Int))

/-- JavaScript regex word character: [A-Za-z0-9_]. -/
def isWordChar (c : Char) : Bool := c.isAlphanum || c == '_'

/-- Left-to-right scan for the first match of the regex \b(\d{3})\b, carrying
the previous character to decide the left word boundary.  A digit is a word
character, so the boundary on the left holds iff the previous character is
absent or not a word character, and symmetrically on the right. -/
def threeDigitScan : Option Char → List Char → Option Nat
  | prev, c1 :: c2 :: c3 :: rest =>
      if c1.isDigit && c2.isDigit && c3.isDigit
          && (match prev with | some p => !isWordChar p | none => true)
          && (match rest with | c4 :: _ => !isWordChar c4 | [] => true) then
        some (digitsToNat [c1, c2, c3])
      else
        threeDigitScan (some c1) (c2 :: c3 :: rest)
  | _, _ => none

/-- First \b(\d{3})\b token of a string, as matched in extractStatus. -/
def firstThreeDigitToken (s : String) : Option Nat :=
  threeDigitScan none s.toList

/-- The ?? coalescing over the three status slots read by extractStatus:
error?.status ?? error?.response?.status ?? error?.cause?.status (undefined
and null are both modelled by none). -/
def statusSlot (e : JsError) : Option JsStatusVal :=
  match e.status with
  | some v => some v
  | none =>
      match e.responseStatus with
      | some v => some v
      | none => e.causeStatus

/-- Status recovered from the message text, the last-resort tier of
extractStatus. -/
def messageStatus (e : JsError) : Option Int :=
  match e.message with
  | some m => (firstThreeDigitToken m).map Int.ofNat
  | none => none

/-- src/index.ts extractStatus: a finite numeric slot wins; a non-blank
string slot is parsed with Number.parseInt; otherwise the first three-digit
token of the message is used; otherwise null. -/
def extractStatus (e : JsError) : Option Int :=
  match statusSlot e with
  | some (.num n) => some n
  | some (.str s) =>
      if trimStr s ≠ "" then
        match parseIntJS s with
        | some n => some n
        | none => messageStatus e
      else messageStatus e
  | _ => messageStatus e

/-- Prefix comparison of character lists. -/
def leadsWith : List Char → List Char → Bool
  | [], _ => true
  | _ :: _, [] => false
  | a :: as, b :: bs => a == b && leadsWith as bs

/-- Substring occurrence check over character lists. -/
def hasSub (needle : List Char) : List Char → Bool
  | [] => leadsWith needle []
  | c :: t => leadsWith needle (c :: t) || hasSub needle t

/-- JavaScript String.prototype.includes for our purposes. -/
def containsSub (hay pat : String) : Bool := hasSub pat.toList hay.toList

/-- ASCII lowercase image of a string (the messages tested only use ASCII
vocabulary, so this models String.prototype.toLowerCase). -/
def toLowerStr (s : String) : String := String.mk (s.toList.map Char.toLower)

/-- ASCII uppercase image of a string, modelling String.prototype.toUpperCase. -/
def toUpperStr (s : String) : String := String.mk (s.toList.map Char.toUpper)

/-- The status allow-list of shouldRetrySegmentError. -/
def transientStatusList : List Int :=
  [408, 409, 425, 429, 500, 502, 503, 504, 522, 524]

/-- The transient-network vocabulary regex alternatives of
shouldRetrySegmentError: /timeout|temporarily unavailable|connection
reset|gateway|rate limit/. -/
def transientVocab : List String :=
  ["timeout", "temporarily unavailable", "connection reset", "gateway", "rate limit"]

/-- Test of the transient vocabulary against
String(error?.message || "").toLowerCase(). -/
def messageMatchesTransient (e : JsError) : Bool :=
  let msg := toLowerStr (e.message.getD "")
  transientVocab.any (fun w => containsSub msg w)

/-- The transient network error code allow-list of shouldRetrySegmentError. -/
def transientCodeList : List String :=
  ["ECONNRESET", "ETIMEDOUT", "EHOSTUNREACH", "ENETUNREACH", "ECONNABORTED"]

/-- Code-field tier: typeof error?.code === "string" and its uppercase image
is in the transient code allow-list. -/
def codeMatchesTransient (e : JsError) : Bool :=
  match e.code with
  | some (.str s) => transientCodeList.contains (toUpperStr s)
  | _ => false

/-- src/index.ts shouldRetrySegmentError: with a status, codes in [200,400)
never retry, the allow-list always retries, and anything else falls to the
message tier, then the code tier, then to (status == null).  The two arms of
the match spell out that final return for the some/none cases. -/
def shouldRetrySegmentError (e : JsError) : Bool :=
  match extractStatus e with
  | some s =>
      if 200 ≤ s ∧ s < 400 then false
      else if transientStatusList.contains s then true
      else if messageMatchesTransient e then true
      else if codeMatchesTransient e then true
      else false
  | none =>
      if messageMatchesTransient e then true
      else if codeMatchesTransient e then true
      else true

/-! ## /dub segment normalization (src/index.ts 1286-1334) -/

/-- The text field of a submitted segment object: absent, null and non-string
values all behave as the empty string under the typeof guard, so they are
collapsed into missing. -/
inductive JsTextField where
  | missing
  | strVal (s : String)
  deriving DecidableEq, Repr

/-- A numeric field of a submitted segment object: absent, null, non-number
and non-finite numbers all fail the Number.isFinite guard, so they are
collapsed into missing.  Finite values are modelled as Int; the pipeline only
copies and compares them. -/
inductive JsNumField where
  | missing
  | numVal (n : Int)
  deriving DecidableEq, Repr

/-- A raw entry of the submitted segments array. -/
structure RawDubSegment where
  text : JsTextField := .missing
  index : JsNumField := .missing
  start : JsNumField := .missing
  stop : JsNumField := .missing
  targetDuration : JsNumField := .missing
  deriving DecidableEq, Repr

/-- A normalized segment accepted into the batch (stop models the field
named end in the source, a reserved word here). -/
structure DubSegment where
  index : Int
  text : String
  start : Option Int := none
  stop : Option Int := none
  targetDuration : Option Int := none
  deriving DecidableEq, Repr

/-- rawText of the normalization: typeof segment.text === "string" gives the
string, anything else the empty string. -/
def rawTextOf (seg : RawDubSegment) : String :=
  match seg.text with
  | .strVal s => s
  | .missing => ""

/-- The body of the normalization once the trimmed text is known non-empty:
a missing or non-finite index defaults to the 1-based position idx + 1,
start and end are kept when finite, and targetDuration falls back to
max 0 (end - start) when both bounds are present. -/
def dubBuild (idx : Nat) (seg : RawDubSegment) : DubSegment :=
  let start : Option Int := match seg.start with | .numVal n => some n | .missing => none
  let stop : Option Int := match seg.stop with | .numVal n => some n | .missing => none
  { index := match seg.index with | .numVal n => n | .missing => ((idx + 1 : Nat) : Int)
    text := trimStr (rawTextOf seg)
    start := start
    stop := stop
    targetDuration :=
      match seg.targetDuration with
      | .numVal n => some n
      | .missing =>
          match start, stop with
          | some s, some e => some (max 0 (e - s))
          | _, _ => none }

/-- One step of the segments normalization: an entry without a non-empty
trimmed string text maps to null. -/
def normalizeOne (idx : Nat) (seg : RawDubSegment) : Option DubSegment :=
  if trimStr (rawTextOf seg) = "" then none else some (dubBuild idx seg)

/-- segmentsPayload = parsed.segments.map(...).filter(Boolean): the map
carries the 0-based array position idx, and null entries are dropped
afterwards. -/
def segmentsPayloadOf (raws : List RawDubSegment) : List DubSegment :=
  (raws.enum.map (fun p => normalizeOne p.1 p.2)).filterMap id

/-- Combined character count of the accepted batch
(segmentsPayload.reduce over text.length). -/
def totalCharsOf (segs : List DubSegment) : Nat :=
  (segs.map (fun s => s.text.length)).sum

/-! ## chunkLines (src/index.ts 97-140), used by the legacy lines branch -/

/-- MAX_TTS_CHARS_PER_CHUNK. -/
def maxTtsCharsPerChunk : Nat := 3500

/-- flush: push the trimmed current chunk when non-blank. -/
def chunkFlush (chunks : List String) (current : String) : List String :=
  if trimStr current = "" then chunks else chunks ++ [trimStr current]

/-- Fuel-based splitting of an overlong line into maxChars-sized slices
(the for loop stepping i by maxChars); with fuel at least the character
count and maxChars at least 1 the fuel never runs out. -/
def chopLineAux (maxChars : Nat) : Nat → List Char → List (List Char)
  | 0, _ => []
  | _, [] => []
  | fuel + 1, c :: cs => (c :: cs).take maxChars :: chopLineAux maxChars fuel ((c :: cs).drop maxChars)

/-- The trimmed, non-empty pieces of an overlong line. -/
def overlongPieces (line : String) (maxChars : Nat) : List String :=
  (((chopLineAux maxChars line.toList.length line.toList).map
      (fun p => trimStr (String.mk p))).filter (fun p => p ≠ ""))

/-- The body of the for loop of chunkLines, acting on the accumulated
(chunks, current) pair. -/
def chunkLinesStep (maxChars : Nat) (st : List String × String) (line : String) :
    List String × String :=
  if maxChars < line.length then
    (chunkFlush st.1 st.2 ++ overlongPieces line maxChars, "")
  else if st.2 = "" then
    (st.1, line)
  else if maxChars < st.2.length + 1 + line.length then
    (chunkFlush st.1 st.2, line)
  else
    (st.1, st.2 ++ "\n" ++ line)

/-- chunkLines: trim all lines, drop blanks, then greedily pack them into
chunks of at most maxChars characters, splitting overlong lines. -/
def chunkLines (lines : List String) (maxChars : Nat) : List String :=
  let filtered := (lines.map (fun l => trimStr l)).filter (fun l => l ≠ "")
  let st := filtered.foldl (chunkLinesStep maxChars) ([], "")
  chunkFlush st.1 st.2

/-! ## Segment synthesis with retries (src/index.ts synthesizeSegment) -/

/-- The /dub policy knobs; the defaults are the env-variable defaults after
their Math.max clamps (DUB_MAX_SEGMENTS 240, DUB_MAX_TOTAL_CHARACTERS 90000,
DUB_MAX_RETRIES 3, DUB_RETRY_BASE_DELAY_MS 500, DUB_RETRY_MAX_DELAY_MS 4000,
DUB_MAX_CONCURRENCY 4). -/
structure DubConfig where
  maxSegments : Nat := 240
  maxTotalCharacters : Nat := 90000
  maxRetries : Nat := 3
  baseDelayMs : Nat := 500
  maxDelayMs : Nat := 4000
  maxConcurrency : Nat := 4
  deriving DecidableEq, Repr

/-- The retry loop of one segment synthesis, modelled with the client still
connected (disconnect behaviour is covered by the pool trace model below).
The oracle gives the outcome of each attempt, attempts numbered from 1.
rem is the number of retries still allowed after the current attempt,
maxRetries - attemptNum, so rem = 0 is the attempt >= DUB_MAX_RETRIES exit:
that final attempt either succeeds or its error is thrown.  The result is
returned together with the backoff delays slept between attempts, in
order. -/
def segmentAttempts (oracle : Nat → Except JsError String) (baseDelay maxDelay : Nat) :
    Nat → Nat → Except JsError String × List Nat
  | attemptNum, 0 => (oracle attemptNum, [])
  | attemptNum, rem + 1 =>
      match oracle attemptNum with
      | .ok audio => (.ok audio, [])
      | .error e =>
          if shouldRetrySegmentError e then
            let d := min maxDelay (baseDelay * 2 ^ (attemptNum - 1))
            let next := segmentAttempts oracle baseDelay maxDelay (attemptNum + 1) rem
            (next.1, d :: next.2)
          else (.error e, [])

/-- synthesizeSegment for one segment: start at attempt 1 with
maxRetries - 1 retries still allowed. -/
def synthesizeSegment (oracle : Nat → Except JsError String) (cfg : DubConfig) :
    Except JsError String × List Nat :=
  segmentAttempts oracle cfg.baseDelayMs cfg.maxDelayMs 1 (cfg.maxRetries - 1)

/-! ## Result slot array (src/index.ts 1386-1430, 1529) -/

/-- The response record built for one synthesized segment. -/
structure SegmentResponse where
  index : Int
  audioBase64 : String
  targetDuration : Option Int := none
  deriving DecidableEq, Repr

/-- The value written into slot p when the segment at position p completes:
the caller-supplied index and targetDuration of that segment plus its audio.
Positions out of range never occur under the hypotheses of the theorems. -/
def slotValue (segs : List DubSegment) (audio : Nat → String) (p : Nat) : SegmentResponse :=
  match segs.get? p with
  | some seg => { index := seg.index, audioBase64 := audio p, targetDuration := seg.targetDuration }
  | none => { index := 0, audioBase64 := "" }

/-- Execute the batch: a pre-sized slot array, initially all empty, receives
each completed segment at that segment position; order is the completion
order chosen by the scheduler. -/
def runSlotWrites (segs : List DubSegment) (audio : Nat → String) (order : List Nat) :
    List (Option SegmentResponse) :=
  order.foldl (fun slots p => slots.set p (some (slotValue segs audio p)))
    (List.replicate segs.length none)

/-- completedSegments = segmentResponses.filter(Boolean). -/
def completedSegments (slots : List (Option SegmentResponse)) : List SegmentResponse :=
  slots.filterMap id

/-! ## The /dub endpoint body (src/index.ts 1286-1612) -/

/-- Observable outcomes of the /dub body. -/
inductive DubOutcome where
  | rejectedSegmentCount (received limit : Nat)
  | rejectedCharacters (received limit : Nat)
  | segmentsOk (segmentCount totalCharacters : Nat) (segments : List SegmentResponse)
  | segmentsFailed (details : Option String)
  | linesRequired
  | noValidDialogue
  | linesOk (chunkCount totalCharacters : Nat) (audioChunks : List String)
  | linesFailed (e : JsError)
  deriving DecidableEq, Repr

/-- JavaScript ?? over optional strings. -/
def jsCoalesceStr (a b : Option String) : Option String :=
  match a with
  | some s => some s
  | none => b

/-- Sequential model of the segments branch after admission: positions are
processed in order (the upstream call count and each per-segment outcome do
not depend on which worker drains which position while the client stays
connected), stopping at the first segment that exhausts its retries, whose
error surfaces as response.data ?? message.  Each loop iteration of
segmentAttempts makes exactly one upstream call, so a segment makes one call
per recorded delay plus one.  Returns the outcome and the number of upstream
calls issued. -/
def segmentsLoop (cfg : DubConfig) (env : Nat → Nat → Except JsError String) :
    Nat → List DubSegment → Except (Option String) (List SegmentResponse) × Nat
  | _, [] => (.ok [], 0)
  | pos, seg :: rest =>
      let r := synthesizeSegment (env pos) cfg
      let calls := r.2.length + 1
      match r.1 with
      | .ok audio =>
          let next := segmentsLoop cfg env (pos + 1) rest
          (next.1.map (fun l =>
            { index := seg.index, audioBase64 := audio,
              targetDuration := seg.targetDuration } :: l),
           calls + next.2)
      | .error e => (.error (jsCoalesceStr e.responseData e.message), calls)

/-- Sequential run of the legacy lines branch chunks, aborting at the first
upstream failure (that branch has no retries); returns the audio chunks and
the number of upstream calls. -/
def linesRun (env : Nat → Except JsError String) :
    Nat → List String → Except JsError (List String) × Nat
  | _, [] => (.ok [], 0)
  | idx, _ :: rest =>
      match env idx with
      | .ok audio =>
          let next := linesRun env (idx + 1) rest
          (next.1.map (fun l => audio :: l), 1 + next.2)
      | .error e => (.error e, 1)

/-- The legacy lines branch of /dub (src/index.ts 1545-1599): trim the
submitted lines, require a non-empty array, chunk them, require a non-empty
chunk list, then synthesize each chunk in order. -/
def dubLinesBranch (lines : List String) (envLine : Nat → Except JsError String) :
    DubOutcome × Nat :=
  let trimmedLines := lines.map (fun l => trimStr l)
  if trimmedLines.isEmpty then (.linesRequired, 0)
  else
    let chunks := chunkLines trimmedLines maxTtsCharsPerChunk
    if chunks.isEmpty then (.noValidDialogue, 0)
    else
      let totalCharacters := (trimmedLines.map String.length).sum
      let r := linesRun envLine 0 chunks
      match r.1 with
      | .ok audios => (.linesOk chunks.length totalCharacters audios, r.2)
      | .error e => (.linesFailed e, r.2)

/-- The /dub body after authentication: normalize the submitted segments;
when any remain, run the admission checks (segment-count cap first, then the
character cap) before any upstream work, then synthesize; when none remain,
fall through to the legacy lines branch.  Returns the outcome and the total
number of upstream synthesis calls issued. -/
def dubHandler (cfg : DubConfig) (raws : List RawDubSegment) (lines : List String)
    (envSeg : Nat → Nat → Except JsError String)
    (envLine : Nat → Except JsError String) : DubOutcome × Nat :=
  let segs := segmentsPayloadOf raws
  if 0 < segs.length then
    if cfg.maxSegments < segs.length then
      (.rejectedSegmentCount segs.length cfg.maxSegments, 0)
    else
      let totalCharacters := totalCharsOf segs
      if cfg.maxTotalCharacters < totalCharacters then
        (.rejectedCharacters totalCharacters cfg.maxTotalCharacters, 0)
      else
        let r := segmentsLoop cfg envSeg 0 segs
        match r.1 with
        | .ok responses => (.segmentsOk responses.length totalCharacters responses, r.2)
        | .error details => (.segmentsFailed details, r.2)
  else
    dubLinesBranch lines envLine

/-! ## Translation jobs (src/index.ts 43-71, 223-341, 1154-1187) -/

inductive TranslationJobStatus where
  | queued
  | processing
  | completed
  | failed
  deriving DecidableEq, Repr

structure ChatMessage where
  role : String
  content : String
  deriving DecidableEq, Repr

/-- A chat-mode payload; reasoningEffort models payload.reasoning?.effort,
the only part of the reasoning object the code reads — none when reasoning
or its effort field is absent, some s otherwise (s = "" being the falsy
string). -/
structure ChatPayload where
  messages : List ChatMessage
  model : String
  reasoningEffort : Option String := none
  deriving DecidableEq, Repr

structure TextPayload where
  text : String
  targetLanguage : String
  model : String
  deriving DecidableEq, Repr

inductive JobPayload where
  | chat (p : ChatPayload)
  | text (p : TextPayload)
  deriving DecidableEq, Repr

def JobPayload.model : JobPayload → String
  | .chat p => p.model
  | .text p => p.model

/-- A provider response treated as an uninterpreted blob. -/
structure ProviderCompletion where
  content : String
  deriving DecidableEq, Repr

structure JobError where
  message : String
  details : Option String := none
  deriving DecidableEq, Repr

structure TranslationJob where
  id : Nat
  status : TranslationJobStatus
  createdAt : Nat
  updatedAt : Nat
  payload : JobPayload
  openaiKey : String
  anthropicKey : Option String := none
  result : Option ProviderCompletion := none
  error : Option JobError := none
  deriving DecidableEq, Repr

/-- DEFAULT_TRANSLATION_MODEL from src/constants.ts. -/
def defaultTranslationModel : String := "gpt-4.1"

/-- Modelled from the spec: isClaudeModel is imported by src/index.ts from
./constants.js but its definition is not among the sources; the spec
describes routing as a string-prefix convention in which a distinguished
prefix selects the Claude provider over the default, so a model is a Claude
model iff its identifier starts with the claude prefix. -/
def isClaudeModel (model : String) : Bool :=
  leadsWith "claude".toList model.toList

/-- The request passed to translateWithClaude. -/
structure ClaudeRequest where
  messages : List ChatMessage
  model : String
  apiKey : String
  effort : Option String := none
  deriving DecidableEq, Repr

/-- The request passed to client.chat.completions.create. -/
structure OpenAIChatRequest where
  model : String
  messages : List ChatMessage
  reasoningEffort : Option String := none
  deriving DecidableEq, Repr

inductive ProviderCall where
  | claude (req : ClaudeRequest)
  | openai (req : OpenAIChatRequest)
  deriving DecidableEq, Repr

/-- The primitive mutations processTranslationJob performs on the job
record, in program order. -/
inductive JobMutation where
  | setStatus (s : TranslationJobStatus)
  | setUpdatedAt (t : Nat)
  | setResult (c : ProviderCompletion)
  | setError (e : JobError)
  deriving DecidableEq, Repr

def applyMutation (j : TranslationJob) : JobMutation → TranslationJob
  | .setStatus s => { j with status := s }
  | .setUpdatedAt t => { j with updatedAt := t }
  | .setResult c => { j with result := some c }
  | .setError e => { j with error := some e }

/-- JavaScript || over optional strings, the empty string being falsy. -/
def jsOrStr (a b : Option String) : Option String :=
  match a with
  | some s => if s = "" then b else some s
  | none => b

/-- Truthiness of the optional effort string. -/
def effortTruthy : Option String → Bool
  | some s => s ≠ ""
  | none => false

/-- JavaScript truthiness of a status-slot value. -/
def jsTruthyVal : JsStatusVal → Bool
  | .num n => n ≠ 0
  | .nanOrInf => false
  | .str s => s ≠ ""
  | .objVal => true

/-- JavaScript || over optional status-slot values. -/
def jsOrVal (a b : Option JsStatusVal) : Option JsStatusVal :=
  match a with
  | some v => if jsTruthyVal v then some v else b
  | none => b

/-- Strict equality test status === 400. -/
def isStatus400 : Option JsStatusVal → Bool
  | some (.num 400) => true
  | _ => false

/-- The single user message synthesized for text payloads on the Claude
path. -/
def textPromptClaude (text targetLanguage : String) : String :=
  "You are a professional translator. Translate the following text to " ++
    targetLanguage ++ ". Only return the translated text, nothing else.\n\n" ++ text

/-- The system message synthesized for text payloads on the OpenAI path. -/
def textSystemOpenAI (targetLanguage : String) : String :=
  "You are a professional translator. Translate the following text to " ++
    targetLanguage ++ ". Only return the translated text, nothing else."

/-- The try block of processTranslationJob (src/index.ts 227-328): resolve
the model, route by isClaudeModel, build the provider request, and issue the
provider calls through the oracle (the k-th call of this job gets outcome
env k), with the single reasoning-effort downgrade retry on the OpenAI chat
path.  Returns the outcome together with the provider requests issued, in
order. -/
def processTryBody (payload : JobPayload) (jobAnthropicKey envAnthropicKey : Option String)
    (env : Nat → Except JsError ProviderCompletion) :
    Except JsError ProviderCompletion × List ProviderCall :=
  let model := if payload.model = "" then defaultTranslationModel else payload.model
  if isClaudeModel model then
    let anthropicKey := (jsOrStr (jsOrStr jobAnthropicKey envAnthropicKey) (some "")).getD ""
    if anthropicKey = "" then
      (.error { message := some "No Anthropic API key available for Claude model",
                stringRep := "Error: No Anthropic API key available for Claude model" }, [])
    else
      match payload with
      | .chat p =>
          (env 0, [.claude { messages := p.messages, model := model,
                             apiKey := anthropicKey, effort := p.reasoningEffort }])
      | .text p =>
          (env 0, [.claude { messages := [{ role := "user",
                                            content := textPromptClaude p.text p.targetLanguage }],
                             model := model, apiKey := anthropicKey }])
  else
    match payload with
    | .chat p =>
        let req1 : OpenAIChatRequest :=
          { model := model, messages := p.messages,
            reasoningEffort := if effortTruthy p.reasoningEffort then p.reasoningEffort else none }
        (match env 0 with
         | .ok c => (.ok c, [.openai req1])
         | .error err =>
            let status := jsOrVal err.status err.responseStatus
            let msg := toLowerStr (err.message.getD "")
            if effortTruthy p.reasoningEffort &&
                (isStatus400 status || containsSub msg "reasoning") then
              (env 1, [.openai req1, .openai { model := model, messages := p.messages }])
            else
              (.error err, [.openai req1]))
    | .text p =>
        (env 0, [.openai { model := model,
                           messages := [{ role := "system",
                                          content := textSystemOpenAI p.targetLanguage },
                                        { role := "user", content := p.text }] }])

/-- The catch block of processTranslationJob: message is
error.message || String(error), details is the serialized
error.response.data when that is present and truthy. -/
def capturedJobError (e : JsError) : JobError :=
  { message := (jsOrStr e.message (some e.stringRep)).getD e.stringRep,
    details := e.responseData }

/-- processTranslationJob (src/index.ts 223-341) as the ordered list of
mutations it performs on the job record, plus the provider requests issued;
now1 is Date.now() at entry and now2 Date.now() in the finally block. -/
def processMutations (job : TranslationJob) (envAnthropicKey : Option String)
    (env : Nat → Except JsError ProviderCompletion) (now1 now2 : Nat) :
    List JobMutation × List ProviderCall :=
  let body := processTryBody job.payload job.anthropicKey envAnthropicKey env
  let tail : List JobMutation :=
    match body.1 with
    | .ok c => [.setResult c, .setStatus .completed]
    | .error e => [.setError (capturedJobError e), .setStatus .failed]
  ([.setStatus .processing, .setUpdatedAt now1] ++ tail ++ [.setUpdatedAt now2], body.2)

/-- The job record after processTranslationJob returns.  The embedding is a
total function: every failure of the try body is captured by the catch
mutations, so the returned promise never rejects. -/
def processTranslationJob (job : TranslationJob) (envAnthropicKey : Option String)
    (env : Nat → Except JsError ProviderCompletion) (now1 now2 : Nat) : TranslationJob :=
  (processMutations job envAnthropicKey env now1 now2).1.foldl applyMutation job

/-- The status writes among a mutation list, in order. -/
def statusWrites (muts : List JobMutation) : List TranslationJobStatus :=
  muts.filterMap (fun m => match m with | .setStatus s => some s | _ => none)

/-! ## Job store pruning (src/index.ts 142-152) -/

def isTerminalStatus : TranslationJobStatus → Bool
  | .completed => true
  | .failed => true
  | _ => false

/-- pruneTranslationJobs: delete completed/failed jobs whose createdAt is
older than maxAgeMs.  The Map is modelled as an insertion-ordered
association list, so the for-of deletion is a filter; Date.now values are
Nat and createdAt never exceeds now. -/
def pruneTranslationJobs (now maxAgeMs : Nat) (jobs : List (Nat × TranslationJob)) :
    List (Nat × TranslationJob) :=
  jobs.filter (fun kv =>
    !(isTerminalStatus kv.2.status && decide (maxAgeMs < now - kv.2.createdAt)))

/-! ## Worker pool cancellation (src/index.ts 1392-1527)

A small-step trace model of the /dub worker pool.  Each event is one of the
atomic (no-await) code sections between suspension points; each guard is the
corresponding requestClosed check in the source.  popStart covers the worker
loop check plus the check at the top of the while loop in synthesizeSegment
plus issuing the call (no await separates them); wakeStart covers waking
from the backoff sleep, re-checking requestClosed at the loop top and
issuing the next call. -/

inductive WorkerPhase where
  | atLoopTop
  | inCall (seg attempt : Nat)
  | sleeping (seg attempt : Nat)
  | done
  deriving DecidableEq, Repr

structure PoolState where
  closed : Bool
  pending : List Nat
  workers : List WorkerPhase
  deriving DecidableEq, Repr

inductive PoolEvent where
  | close
  | popStart (w : Nat)
  | exitClosed (w : Nat)
  | exitEmpty (w : Nat)
  | callOk (w : Nat)
  | callErrAborted (w : Nat)
  | callErrTerminal (w : Nat)
  | callErrRetry (w : Nat)
  | wakeStart (w : Nat)
  | wakeClosed (w : Nat)
  deriving DecidableEq, Repr

def phaseOf (s : PoolState) (w : Nat) : Option WorkerPhase := s.workers.get? w

def setPhase (s : PoolState) (w : Nat) (ph : WorkerPhase) : PoolState :=
  { s with workers := s.workers.set w ph }

/-- Guarded small-step interpreter: none when the event is not enabled.
close is the connection close event firing (it also aborts every live
AbortController, which is why a call failing while closed can only take
callErrAborted, the requestClosed-or-aborted throw, and never the retry
path). -/
def poolStep (s : PoolState) : PoolEvent → Option PoolState
  | .close => if s.closed then none else some { s with closed := true }
  | .popStart w =>
      match phaseOf s w, s.pending with
      | some .atLoopTop, p :: rest =>
          if s.closed then none
          else some (setPhase { s with pending := rest } w (.inCall p 1))
      | _, _ => none
  | .exitClosed w =>
      match phaseOf s w with
      | some .atLoopTop => if s.closed then some (setPhase s w .done) else none
      | _ => none
  | .exitEmpty w =>
      match phaseOf s w, s.pending with
      | some .atLoopTop, [] => if s.closed then none else some (setPhase s w .done)
      | _, _ => none
  | .callOk w =>
      match phaseOf s w with
      | some (.inCall _ _) => some (setPhase s w .atLoopTop)
      | _ => none
  | .callErrAborted w =>
      match phaseOf s w with
      | some (.inCall _ _) => if s.closed then some (setPhase s w .done) else none
      | _ => none
  | .callErrTerminal w =>
      match phaseOf s w with
      | some (.inCall _ _) => if s.closed then none else some (setPhase s w .done)
      | _ => none
  | .callErrRetry w =>
      match phaseOf s w with
      | some (.inCall p a) => if s.closed then none else some (setPhase s w (.sleeping p a))
      | _ => none
  | .wakeStart w =>
      match phaseOf s w with
      | some (.sleeping p a) =>
          if s.closed then none else some (setPhase s w (.inCall p (a + 1)))
      | _ => none
  | .wakeClosed w =>
      match phaseOf s w with
      | some (.sleeping _ _) => if s.closed then some (setPhase s w .done) else none
      | _ => none

def runPool : PoolState → List PoolEvent → Option PoolState
  | s, [] => some s
  | s, e :: rest =>
      match poolStep s e with
      | some s2 => runPool s2 rest
      | none => none

/-- The events that start an upstream call. -/
def isCallStart : PoolEvent → Bool
  | .popStart _ => true
  | .wakeStart _ => true
  | _ => false

def isRetryTransition : PoolEvent → Bool
  | .callErrRetry _ => true
  | _ => false

def countCallStarts (tr : List PoolEvent) : Nat := (tr.filter isCallStart).length

/-- Upstream call starts occurring strictly after the close event of a
trace. -/
def callsAfterClose : List PoolEvent → Nat
  | [] => 0
  | .close :: rest => countCallStarts rest
  | _ :: rest => callsAfterClose rest

/-- Retry transitions occurring strictly after the close event of a trace. -/
def retriesAfterClose : List PoolEvent → Nat
  | [] => 0
  | .close :: rest => (rest.filter isRetryTransition).length
  | _ :: rest => retriesAfterClose rest

/-- The pool at the moment the segments branch launches its workers:
pendingIndices = positions 0..segCount-1, workerCount workers at their loop
top, connection open. -/
def initPool (segCount workerCount : Nat) : PoolState :=
  { closed := false, pending := List.range segCount,
    workers := List.replicate workerCount .atLoopTop }

/-! ## Concrete instances used by witness and counterexample theorems -/

/-- A plain 503 upstream error. -/
def err503 : JsError := { status := some (.num 503) }

/-- A 400 error whose message mentions a gateway. -/
def err400gateway : JsError := { status := some (.num 400), message := some "gateway" }

/-- A freshly enqueued text-mode job. -/
def job0 : TranslationJob :=
  { id := 0, status := .queued, createdAt := 0, updatedAt := 0,
    payload := .text { text := "hello", targetLanguage := "French", model := "gpt-4.1" },
    openaiKey := "sk-test" }

/-- A freshly enqueued chat-mode job carrying a reasoning-effort hint. -/
def chatJob : TranslationJob :=
  { id := 1, status := .queued, createdAt := 0, updatedAt := 0,
    payload := .chat { messages := [{ role := "user", content := "hi" }],
                       model := "gpt-4.1", reasoningEffort := some "high" },
    openaiKey := "sk-test" }

def envOk : Nat → Except JsError ProviderCompletion :=
  fun _ => .ok { content := "bonjour" }

def envFail : Nat → Except JsError ProviderCompletion :=
  fun _ => .error { status := some (.num 500), message := some "Internal Server Error",
                    stringRep := "Error: Internal Server Error" }

/-- First call rejected with a parameter error, second call succeeds. -/
def envDowngrade : Nat → Except JsError ProviderCompletion :=
  fun k =>
    if k = 0 then
      .error { status := some (.num 400),
               message := some "Unknown parameter reasoning_effort",
               stringRep := "Error: Unknown parameter reasoning_effort" }
    else .ok { content := "done" }

/-- 241 one-character segments, one over the default segment cap. -/
def raws241 : List RawDubSegment := List.replicate 241 { text := .strVal "a" }

def noEnvSeg : Nat → Nat → Except JsError String := fun _ _ => .error {}

def noEnvLine : Nat → Except JsError String := fun _ => .error {}

/-- Two accepted segments with caller-supplied indices out of sorted order. -/
def segsTwo : List DubSegment := [{ index := 10, text := "alpha" }, { index := 5, text := "beta" }]

def audioTwo : Nat → String := fun p => if p = 0 then "AAA" else "BBB"

/-- A pool trace: two workers pick up work, the client disconnects, the
aborted call of worker 0 throws, the in-flight call of worker 1 still
succeeds and that worker then exits at its loop top. -/
def c7Trace : List PoolEvent :=
  [.popStart 0, .popStart 1, .close, .callErrAborted 0, .callOk 1, .exitClosed 1]

def c7FinalState : PoolState := { closed := true, pending := [2], workers := [.done, .done] }

/-- A segments array whose entries all lack usable text. -/
def blankSegRaws : List RawDubSegment := [{ text := .strVal "   " }, { index := .numVal 3 }]

/-! # Theorems -/

/-! ## C2: the retry classifier -/

theorem shouldRetry_eq_of_status (e : JsError) (s : Int) (h : extractStatus e = some s) :
    shouldRetrySegmentError e =
      (if 200 ≤ s ∧ s < 400 then false
       else if transientStatusList.contains s then true
       else if messageMatchesTransient e then true
       else if codeMatchesTransient e then true
       else false) := by
  unfold shouldRetrySegmentError
  rw [h]

theorem shouldRetry_eq_of_none (e : JsError) (h : extractStatus e = none) :
    shouldRetrySegmentError e =
      (if messageMatchesTransient e then true
       else if codeMatchesTransient e then true
       else true) := by
  unfold shouldRetrySegmentError
  rw [h]

/-- C2 (amended): for every error value, the classifier returns true when
the extracted status is 429, 500, 502, 503 or 504; returns false when the
extracted status is 400, 401, 403 or 404, provided the message carries no
transient-network vocabulary and the code field is not a transient network
code; and returns true when no status can be extracted and the error carries
no recognizable transient message or code (default-optimistic). -/
theorem c2_retry_classifier (e : JsError) :
    (∀ s : Int, extractStatus e = some s →
        s ∈ ([429, 500, 502, 503, 504] : List Int) → shouldRetrySegmentError e = true) ∧
    (∀ s : Int, extractStatus e = some s →
        s ∈ ([400, 401, 403, 404] : List Int) →
        messageMatchesTransient e = false → codeMatchesTransient e = false →
        shouldRetrySegmentError e = false) ∧
    (extractStatus e = none → messageMatchesTransient e = false →
        codeMatchesTransient e = false → shouldRetrySegmentError e = true) := by
  refine ⟨?_, ?_, ?_⟩
  · intro s hs hmem
    rw [shouldRetry_eq_of_status e s hs]
    fin_cases hmem <;> simp [transientStatusList]
  · intro s hs hmem hm hc
    rw [shouldRetry_eq_of_status e s hs]
    fin_cases hmem <;> simp [transientStatusList, hm, hc]
  · intro hs hm hc
    rw [shouldRetry_eq_of_none e hs]
    simp [hm, hc]

/-- Witness for C2 at concrete errors: a bare 503 retries, a 404 with an
unrelated message does not, and a status-less network failure retries. -/
theorem c2_retry_classifier_witness :
    shouldRetrySegmentError err503 = true ∧
    shouldRetrySegmentError { status := some (.num 404), message := some "not found" } = false ∧
    shouldRetrySegmentError { message := some "socket hang up" } = true := by
  refine ⟨?_, ?_, ?_⟩
  · exact (c2_retry_classifier err503).1 503 (by decide) (by decide)
  · exact (c2_retry_classifier _).2.1 404 (by decide) (by decide) (by decide) (by decide)
  · exact (c2_retry_classifier _).2.2 (by decide) (by decide) (by decide)

/-- C2 counterexample: an error whose extracted status is 400 but whose
message mentions a gateway is classified retryable, so status 400 does not
always yield retry = false as the claim states. -/
theorem c2_counterexample :
    extractStatus err400gateway = some 400 ∧
    shouldRetrySegmentError err400gateway = true := by
  constructor <;> decide

/-! ## C3: exponential backoff -/

theorem segmentAttempts_delay (oracle : Nat → Except JsError String) (base maxD : Nat) :
    ∀ (rem a k : Nat), 1 ≤ a → k < (segmentAttempts oracle base maxD a rem).2.length →
      (segmentAttempts oracle base maxD a rem).2.get? k =
        some (min maxD (base * 2 ^ (a - 1 + k))) := by
  intro rem
  induction rem with
  | zero =>
      intro a k ha h
      simp [segmentAttempts] at h
  | succ rem ih =>
      intro a k ha h
      rcases hoa : oracle a with e | v
      · by_cases hr : shouldRetrySegmentError e
        · have hunfold : segmentAttempts oracle base maxD a (rem + 1) =
              ((segmentAttempts oracle base maxD (a + 1) rem).1,
                min maxD (base * 2 ^ (a - 1)) ::
                  (segmentAttempts oracle base maxD (a + 1) rem).2) := by
            simp [segmentAttempts, hoa, hr]
          rcases k with _ | k
          · rw [hunfold]
            simp
          · have h2 : k < (segmentAttempts oracle base maxD (a + 1) rem).2.length := by
              rw [hunfold] at h
              simpa using h
            have hih := ih (a + 1) k (by omega) h2
            have harith : a + 1 - 1 + k = a - 1 + (k + 1) := by omega
            rw [harith] at hih
            rw [hunfold]
            simpa using hih
        · have hunfold : segmentAttempts oracle base maxD a (rem + 1) =
              (Except.error e, []) := by
            simp [segmentAttempts, hoa, hr]
          rw [hunfold] at h
          simp at h
      · have hunfold : segmentAttempts oracle base maxD a (rem + 1) =
            (Except.ok v, []) := by
          simp [segmentAttempts, hoa]
        rw [hunfold] at h
        simp at h

/-- C3: for every retry attempt n >= 1, the backoff delay slept before the
next attempt — the n-th recorded delay of the loop, which numbers attempts
from 1 — equals min maxDelay (baseDelay * 2 ^ (n - 1)); and with the default
base 500 ms and cap 4000 ms (maxRetries raised to 6 so that five delays
occur) the delays for attempts 1..5 are 500, 1000, 2000, 4000 and 4000
milliseconds. -/
theorem c3_backoff_delays :
    (∀ (oracle : Nat → Except JsError String) (cfg : DubConfig) (n : Nat), 1 ≤ n →
        n - 1 < (synthesizeSegment oracle cfg).2.length →
        (synthesizeSegment oracle cfg).2.get? (n - 1) =
          some (min cfg.maxDelayMs (cfg.baseDelayMs * 2 ^ (n - 1)))) ∧
    (synthesizeSegment (fun _ => .error err503) { maxRetries := 6 }).2 =
      [500, 1000, 2000, 4000, 4000] := by
  constructor
  · intro oracle cfg n hn h
    have hgen := segmentAttempts_delay oracle cfg.baseDelayMs cfg.maxDelayMs
      (cfg.maxRetries - 1) 1 (n - 1) (le_refl 1) h
    simpa using hgen
  · decide

/-- Witness for C3: attempt 3 of the concrete always-failing run sleeps
min 4000 (500 * 2 ^ 2) = 2000 ms. -/
theorem c3_backoff_delays_witness :
    (synthesizeSegment (fun _ => .error err503) { maxRetries := 6 }).2.get? 2 =
      some 2000 := by
  have h := c3_backoff_delays.1 (fun _ => .error err503) { maxRetries := 6 } 3
    (by decide) (by decide)
  exact h.trans (by decide)

/-! ## C4: job store maintenance -/

/-- C4 counterexample: a store of 1001 fresh queued jobs passes through
pruneTranslationJobs unchanged, so after maintenance the job count is 1001,
above the claimed ceiling of 1000 — the code has no capacity eviction. -/
theorem c4_counterexample :
    (pruneTranslationJobs 0 3600000
        ((List.range 1001).map (fun i => (i, { job0 with id := i })))).length = 1001 ∧
    1000 < 1001 := by
  constructor
  · have hfix : pruneTranslationJobs 0 3600000
        ((List.range 1001).map (fun i => (i, { job0 with id := i }))) =
        (List.range 1001).map (fun i => (i, { job0 with id := i })) := by
      apply List.filter_eq_self.mpr
      intro kv hkv
      obtain ⟨i, hi, rfl⟩ := List.mem_map.1 hkv
      rfl
    rw [hfix, List.length_map, List.length_range]
  · decide

/-- C4 (amended): the only maintenance of the job store is age-based
pruning — a stored entry survives pruneTranslationJobs iff it is not both
terminal (completed or failed) and older than maxAgeMs — and nothing bounds
the job count: for every n there is a store of n jobs that maintenance
leaves entirely in place. -/
theorem c4_prune_characterization :
    (∀ (now maxAgeMs : Nat) (jobs : List (Nat × TranslationJob)) (kv : Nat × TranslationJob),
        kv ∈ pruneTranslationJobs now maxAgeMs jobs ↔
          kv ∈ jobs ∧
            ¬(isTerminalStatus kv.2.status = true ∧ maxAgeMs < now - kv.2.createdAt)) ∧
    (∀ n : Nat, ∃ jobs : List (Nat × TranslationJob),
        jobs.length = n ∧ pruneTranslationJobs 0 3600000 jobs = jobs) := by
  constructor
  · intro now maxAgeMs jobs kv
    unfold pruneTranslationJobs
    rw [List.mem_filter]
    constructor
    · rintro ⟨hmem, hpred⟩
      refine ⟨hmem, ?_⟩
      rintro ⟨ht, hage⟩
      rw [ht, decide_eq_true hage] at hpred
      simp at hpred
    · rintro ⟨hmem, hnot⟩
      refine ⟨hmem, ?_⟩
      rcases hts : isTerminalStatus kv.2.status
      · simp
      · rcases hd : decide (maxAgeMs < now - kv.2.createdAt)
        · simp [hd]
        · exact absurd ⟨hts, of_decide_eq_true hd⟩ hnot
  · intro n
    refine ⟨(List.range n).map (fun i => (i, { job0 with id := i })), ?_, ?_⟩
    · rw [List.length_map, List.length_range]
    · apply List.filter_eq_self.mpr
      intro kv hkv
      obtain ⟨i, hi, rfl⟩ := List.mem_map.1 hkv
      rfl

/-! ## C5: index-addressed result slots -/

theorem foldl_set_length (g : Nat → Option SegmentResponse) :
    ∀ (order : List Nat) (slots : List (Option SegmentResponse)),
      (order.foldl (fun s p => s.set p (g p)) slots).length = slots.length := by
  intro order
  induction order with
  | nil => intro slots; rfl
  | cons p rest ih =>
      intro slots
      rw [List.foldl_cons, ih, List.length_set]

theorem foldl_set_fills (g : Nat → Option SegmentResponse) :
    ∀ (order : List Nat) (slots : List (Option SegmentResponse)) (j : Nat),
      j < slots.length →
      (j ∈ order ∨ slots[j]? = some (g j)) →
      (order.foldl (fun s p => s.set p (g p)) slots)[j]? = some (g j) := by
  intro order
  induction order with
  | nil =>
      intro slots j hj hdisj
      rcases hdisj with hmem | hval
      · simp at hmem
      · simpa using hval
  | cons p rest ih =>
      intro slots j hj hdisj
      rw [List.foldl_cons]
      apply ih
      · simpa using hj
      · by_cases hpj : p = j
        · subst hpj
          right
          exact List.getElem?_set_eq_of_lt _ hj
        · rcases hdisj with hmem | hval
          · rcases List.mem_cons.1 hmem with heq | hmem2
            · exact absurd heq.symm hpj
            · exact Or.inl hmem2
          · right
            rw [List.getElem?_set_ne hpj]
            exact hval

theorem runSlotWrites_filled (segs : List DubSegment) (audio : Nat → String)
    (order : List Nat) (hcover : ∀ p, p < segs.length → p ∈ order) :
    ∀ j, j < segs.length →
      (runSlotWrites segs audio order)[j]? = some (some (slotValue segs audio j)) := by
  intro j hj
  unfold runSlotWrites
  apply foldl_set_fills
  · simpa using hj
  · exact Or.inl (hcover j hj)

theorem runSlotWrites_eq_map (segs : List DubSegment) (audio : Nat → String)
    (order : List Nat) (hcover : ∀ p, p < segs.length → p ∈ order) :
    runSlotWrites segs audio order =
      (List.range segs.length).map (fun j => some (slotValue segs audio j)) := by
  have hlen : (runSlotWrites segs audio order).length = segs.length := by
    unfold runSlotWrites
    rw [foldl_set_length, List.length_replicate]
  apply List.ext_get?_iff.mpr
  intro n
  by_cases hn : n < segs.length
  · rw [List.get?_eq_getElem?, List.get?_eq_getElem?,
      runSlotWrites_filled segs audio order hcover n hn]
    rw [List.getElem?_map, List.getElem?_range hn]
    rfl
  · rw [List.get?_eq_getElem?, List.get?_eq_getElem?, List.getElem?_eq_none, List.getElem?_eq_none]
    · rw [List.length_map, List.length_range]; omega
    · omega

/-- C5: for every accepted batch and every completion order covering each
position (workers may finish in any interleaving), the filtered response
array has exactly one entry per submitted segment, and entry i carries the
index of submitted segment i — output order never depends on completion
order. -/
theorem c5_output_preserves_order (segs : List DubSegment) (audio : Nat → String)
    (order : List Nat) (hcover : ∀ p, p < segs.length → p ∈ order) :
    (completedSegments (runSlotWrites segs audio order)).length = segs.length ∧
    ∀ i (hi : i < segs.length)
      (ho : i < (completedSegments (runSlotWrites segs audio order)).length),
      (completedSegments (runSlotWrites segs audio order))[i].index = segs[i].index := by
  have hrw := runSlotWrites_eq_map segs audio order hcover
  have hout : completedSegments (runSlotWrites segs audio order) =
      (List.range segs.length).map (fun j => slotValue segs audio j) := by
    rw [completedSegments, hrw]
    simp only [List.filterMap_map, Function.comp, id]
    exact congrFun (List.filterMap_eq_map fun j => slotValue segs audio j) (List.range segs.length)
  refine ⟨?_, ?_⟩
  · rw [hout, List.length_map, List.length_range]
  · intro i hi ho
    simp only [hout, List.getElem_map, List.getElem_range]
    simp [slotValue, List.getElem?_eq_getElem hi]

/-- Witness for C5: with two segments whose caller indices are 10 and 5 and
the workers completing in reverse order, the output still lists index 10
first and index 5 second, matching submission order. -/
theorem c5_output_preserves_order_witness :
    completedSegments (runSlotWrites segsTwo audioTwo [1, 0]) =
      [{ index := 10, audioBase64 := "AAA" }, { index := 5, audioBase64 := "BBB" }] ∧
    (completedSegments (runSlotWrites segsTwo audioTwo [1, 0])).length = segsTwo.length := by
  constructor
  · decide
  · exact (c5_output_preserves_order segsTwo audioTwo [1, 0] (by decide)).1

/-! ## C6: admission caps reject before any upstream work -/

/-- C6: whenever the accepted segment batch exceeds the segment-count cap or
its combined character count exceeds the character ceiling, /dub answers
with the corresponding size-limit rejection and performs zero upstream
synthesis calls. -/
theorem c6_size_caps (cfg : DubConfig) (raws : List RawDubSegment) (lines : List String)
    (envSeg : Nat → Nat → Except JsError String) (envLine : Nat → Except JsError String)
    (hover : cfg.maxSegments < (segmentsPayloadOf raws).length ∨
      cfg.maxTotalCharacters < totalCharsOf (segmentsPayloadOf raws)) :
    (dubHandler cfg raws lines envSeg envLine).2 = 0 ∧
    ((dubHandler cfg raws lines envSeg envLine).1 =
        .rejectedSegmentCount (segmentsPayloadOf raws).length cfg.maxSegments ∨
      (dubHandler cfg raws lines envSeg envLine).1 =
        .rejectedCharacters (totalCharsOf (segmentsPayloadOf raws)) cfg.maxTotalCharacters) := by
  have hpos : 0 < (segmentsPayloadOf raws).length := by
    rcases hover with h1 | h2
    · omega
    · by_contra hz
      push_neg at hz
      have hnil : segmentsPayloadOf raws = [] := List.eq_nil_of_length_eq_zero (by omega)
      rw [hnil] at h2
      simp [totalCharsOf] at h2
  by_cases hc : cfg.maxSegments < (segmentsPayloadOf raws).length
  · have hres : dubHandler cfg raws lines envSeg envLine =
        (.rejectedSegmentCount (segmentsPayloadOf raws).length cfg.maxSegments, 0) := by
      simp only [dubHandler]
      rw [if_pos hpos, if_pos hc]
    rw [hres]
    exact ⟨rfl, Or.inl rfl⟩
  · rcases hover with h1 | h2
    · omega
    · have hres : dubHandler cfg raws lines envSeg envLine =
          (.rejectedCharacters (totalCharsOf (segmentsPayloadOf raws))
            cfg.maxTotalCharacters, 0) := by
        simp only [dubHandler]
        rw [if_pos hpos, if_neg hc, if_pos h2]
      rw [hres]
      exact ⟨rfl, Or.inr rfl⟩

/-- Witness for C6: 241 one-character segments against the default caps are
rejected with zero upstream calls. -/
theorem c6_size_caps_witness :
    (dubHandler {} raws241 [] noEnvSeg noEnvLine).2 = 0 ∧
    ((dubHandler {} raws241 [] noEnvSeg noEnvLine).1 =
        .rejectedSegmentCount (segmentsPayloadOf raws241).length 240 ∨
      (dubHandler {} raws241 [] noEnvSeg noEnvLine).1 =
        .rejectedCharacters (totalCharsOf (segmentsPayloadOf raws241)) 90000) :=
  c6_size_caps {} raws241 [] noEnvSeg noEnvLine (Or.inl (by decide))

/-! ## C10: segments normalization and the lines fallback -/

theorem normalize_enumFrom :
    ∀ (raws : List RawDubSegment) (k : Nat),
      ((List.enumFrom k raws).map (fun p => normalizeOne p.1 p.2)).filterMap id =
        ((List.enumFrom k raws).filter
          (fun p => decide (trimStr (rawTextOf p.2) ≠ ""))).map
          (fun p => dubBuild p.1 p.2) := by
  intro raws
  induction raws with
  | nil => intro k; rfl
  | cons s rest ih =>
      intro k
      rw [List.enumFrom_cons]
      by_cases hts : trimStr (rawTextOf s) = ""
      · simp [normalizeOne, hts]
        simpa [normalizeOne] using ih (k + 1)
      · simp [normalizeOne, hts]
        simpa [normalizeOne] using ih (k + 1)

theorem enumFrom_filter_blank :
    ∀ (raws : List RawDubSegment) (k : Nat),
      (∀ seg ∈ raws, trimStr (rawTextOf seg) = "") →
      (List.enumFrom k raws).filter (fun p => decide (trimStr (rawTextOf p.2) ≠ "")) = [] := by
  intro raws
  induction raws with
  | nil => intro k hall; rfl
  | cons s rest ih =>
      intro k hall
      rw [List.enumFrom_cons, List.filter_cons]
      have hs : trimStr (rawTextOf s) = "" := hall s (List.mem_cons_self s rest)
      simpa [hs] using ih (k + 1) (fun seg hseg => hall seg (List.mem_cons_of_mem s hseg))

theorem segmentsPayload_all_blank :
    ∀ (raws : List RawDubSegment), (∀ seg ∈ raws, trimStr (rawTextOf seg) = "") →
      segmentsPayloadOf raws = [] := by
  intro raws hall
  unfold segmentsPayloadOf
  rw [show raws.enum = List.enumFrom 0 raws from rfl, normalize_enumFrom raws 0,
    enumFrom_filter_blank raws 0 hall]
  rfl

/-- C10: the /dub segments normalization maps the submitted array carrying
the 0-based position and then drops the null entries, which is exactly:
keep, in submission order, the entries whose text is a non-empty string
after trimming; a kept entry without a finite index receives the 1-based
submitted position as its index; and when every entry is dropped the
handler falls through to the legacy lines branch — dropping therefore
happens before the size caps and before any upstream call, which all live
behind the nonempty check. -/
theorem c10_segments_normalization :
    (∀ raws : List RawDubSegment,
        segmentsPayloadOf raws =
          ((raws.enum.filter (fun p => decide (trimStr (rawTextOf p.2) ≠ ""))).map
            (fun p => dubBuild p.1 p.2))) ∧
    (∀ (i : Nat) (seg : RawDubSegment),
        (dubBuild i seg).index =
          match seg.index with
          | .numVal n => n
          | .missing => ((i + 1 : Nat) : Int)) ∧
    (∀ (cfg : DubConfig) (raws : List RawDubSegment) (lines : List String)
        (envSeg : Nat → Nat → Except JsError String)
        (envLine : Nat → Except JsError String),
        (∀ seg ∈ raws, trimStr (rawTextOf seg) = "") →
        dubHandler cfg raws lines envSeg envLine = dubLinesBranch lines envLine) := by
  refine ⟨?_, ?_, ?_⟩
  · intro raws
    unfold segmentsPayloadOf
    rw [show raws.enum = List.enumFrom 0 raws from rfl]
    exact normalize_enumFrom raws 0
  · intro i seg
    rfl
  · intro cfg raws lines envSeg envLine hall
    have hempty := segmentsPayload_all_blank raws hall
    simp [dubHandler, hempty]

/-- Witness for C10: a batch whose two entries have only blank or missing
text is handled by the legacy lines branch. -/
theorem c10_segments_normalization_witness :
    dubHandler {} blankSegRaws ["hi"] noEnvSeg noEnvLine = dubLinesBranch ["hi"] noEnvLine :=
  c10_segments_normalization.2.2 {} blankSegRaws ["hi"] noEnvSeg noEnvLine (by decide)

/-! ## C1, C8, C9: the job processor -/

theorem processMutations_ok (job : TranslationJob) (envKey : Option String)
    (env : Nat → Except JsError ProviderCompletion) (now1 now2 : Nat)
    (c : ProviderCompletion)
    (h : (processTryBody job.payload job.anthropicKey envKey env).1 = .ok c) :
    (processMutations job envKey env now1 now2).1 =
      [.setStatus .processing, .setUpdatedAt now1, .setResult c,
       .setStatus .completed, .setUpdatedAt now2] := by
  simp [processMutations, h]

theorem processMutations_error (job : TranslationJob) (envKey : Option String)
    (env : Nat → Except JsError ProviderCompletion) (now1 now2 : Nat)
    (e : JsError)
    (h : (processTryBody job.payload job.anthropicKey envKey env).1 = .error e) :
    (processMutations job envKey env now1 now2).1 =
      [.setStatus .processing, .setUpdatedAt now1, .setError (capturedJobError e),
       .setStatus .failed, .setUpdatedAt now2] := by
  simp [processMutations, h]

theorem processTranslationJob_of_ok (job : TranslationJob) (envKey : Option String)
    (env : Nat → Except JsError ProviderCompletion) (now1 now2 : Nat)
    (c : ProviderCompletion)
    (h : (processTryBody job.payload job.anthropicKey envKey env).1 = .ok c) :
    processTranslationJob job envKey env now1 now2 =
      { job with status := .completed, updatedAt := now2, result := some c } := by
  unfold processTranslationJob
  rw [processMutations_ok job envKey env now1 now2 c h]
  simp [applyMutation]

theorem processTranslationJob_of_error (job : TranslationJob) (envKey : Option String)
    (env : Nat → Except JsError ProviderCompletion) (now1 now2 : Nat)
    (e : JsError)
    (h : (processTryBody job.payload job.anthropicKey envKey env).1 = .error e) :
    processTranslationJob job envKey env now1 now2 =
      { job with status := .failed, updatedAt := now2,
                 error := some (capturedJobError e) } := by
  unfold processTranslationJob
  rw [processMutations_error job envKey env now1 now2 e h]
  simp [applyMutation]

/-- C1: starting from a freshly enqueued job (queued, no result, no error),
the status writes of processing are exactly queued, processing, completed or
queued, processing, failed — never regressing — and once the job leaves
processing exactly one of result/error is set: completed comes with a result
and no error, failed with an error and no result, never both. -/
theorem c1_job_state_machine (job : TranslationJob) (envKey : Option String)
    (env : Nat → Except JsError ProviderCompletion) (now1 now2 : Nat)
    (hq : job.status = .queued) (hr : job.result = none) (he : job.error = none) :
    (job.status :: statusWrites (processMutations job envKey env now1 now2).1 =
        [.queued, .processing, .completed] ∧
      (processTranslationJob job envKey env now1 now2).status = .completed ∧
      (processTranslationJob job envKey env now1 now2).result.isSome = true ∧
      (processTranslationJob job envKey env now1 now2).error = none) ∨
    (job.status :: statusWrites (processMutations job envKey env now1 now2).1 =
        [.queued, .processing, .failed] ∧
      (processTranslationJob job envKey env now1 now2).status = .failed ∧
      (processTranslationJob job envKey env now1 now2).error.isSome = true ∧
      (processTranslationJob job envKey env now1 now2).result = none) := by
  rcases hbody : (processTryBody job.payload job.anthropicKey envKey env).1 with e | c
  · right
    rw [processMutations_error job envKey env now1 now2 e hbody, hq,
      processTranslationJob_of_error job envKey env now1 now2 e hbody]
    simp [statusWrites, hr]
  · left
    rw [processMutations_ok job envKey env now1 now2 c hbody, hq,
      processTranslationJob_of_ok job envKey env now1 now2 c hbody]
    simp [statusWrites, he]

/-- Witness for C1: a concrete text job processed with a succeeding provider
oracle. -/
theorem c1_job_state_machine_witness :
    (job0.status :: statusWrites (processMutations job0 none envOk 5 9).1 =
        [.queued, .processing, .completed] ∧
      (processTranslationJob job0 none envOk 5 9).status = .completed ∧
      (processTranslationJob job0 none envOk 5 9).result.isSome = true ∧
      (processTranslationJob job0 none envOk 5 9).error = none) ∨
    (job0.status :: statusWrites (processMutations job0 none envOk 5 9).1 =
        [.queued, .processing, .failed] ∧
      (processTranslationJob job0 none envOk 5 9).status = .failed ∧
      (processTranslationJob job0 none envOk 5 9).error.isSome = true ∧
      (processTranslationJob job0 none envOk 5 9).result = none) :=
  c1_job_state_machine job0 none envOk 5 9 rfl rfl rfl

/-- C8: the embedded processTranslationJob is a total function of the job
and the oracle — no oracle behaviour makes it throw — and every failure of
the try body, Claude path and OpenAI path alike, is captured into job.error
as message plus optional details with the status set to failed, while a
success stores the completion and completes the job. -/
theorem c8_failure_capture (job : TranslationJob) (envKey : Option String)
    (env : Nat → Except JsError ProviderCompletion) (now1 now2 : Nat)
    (hr : job.result = none) (he : job.error = none) :
    (∀ e : JsError, (processTryBody job.payload job.anthropicKey envKey env).1 = .error e →
      (processTranslationJob job envKey env now1 now2).status = .failed ∧
      (processTranslationJob job envKey env now1 now2).error =
        some (capturedJobError e) ∧
      (processTranslationJob job envKey env now1 now2).result = none) ∧
    (∀ c : ProviderCompletion,
      (processTryBody job.payload job.anthropicKey envKey env).1 = .ok c →
      (processTranslationJob job envKey env now1 now2).status = .completed ∧
      (processTranslationJob job envKey env now1 now2).result = some c ∧
      (processTranslationJob job envKey env now1 now2).error = none) := by
  constructor
  · intro e hbody
    rw [processTranslationJob_of_error job envKey env now1 now2 e hbody]
    simp [hr]
  · intro c hbody
    rw [processTranslationJob_of_ok job envKey env now1 now2 c hbody]
    simp [he]

/-- Witness for C8: a failing provider oracle yields a failed job carrying
the captured message. -/
theorem c8_failure_capture_witness :
    (processTranslationJob job0 none envFail 5 9).status = .failed ∧
    (processTranslationJob job0 none envFail 5 9).error =
      some (capturedJobError { status := some (.num 500),
                               message := some "Internal Server Error",
                               stringRep := "Error: Internal Server Error" }) ∧
    (processTranslationJob job0 none envFail 5 9).result = none :=
  (c8_failure_capture job0 none envFail 5 9 rfl rfl).1
    { status := some (.num 500), message := some "Internal Server Error",
      stringRep := "Error: Internal Server Error" } rfl

/-- C9: on the OpenAI chat path with a truthy reasoning-effort hint, when
the first provider call fails with status 400 or a message mentioning the
reasoning parameter, exactly one retry is issued, identical except that the
hint is stripped, and the outcome exposed to the caller is decided by that
retry alone: its success completes the job and only its failure fails the
job (with the retry error, not the original). -/
theorem c9_reasoning_downgrade (job : TranslationJob) (p : ChatPayload)
    (envKey : Option String) (env : Nat → Except JsError ProviderCompletion)
    (now1 now2 : Nat) (err : JsError)
    (hpayload : job.payload = .chat p)
    (hmodel : isClaudeModel (if p.model = "" then defaultTranslationModel else p.model) = false)
    (heffort : effortTruthy p.reasoningEffort = true)
    (hfirst : env 0 = .error err)
    (hshape : isStatus400 (jsOrVal err.status err.responseStatus) = true ∨
      containsSub (toLowerStr (err.message.getD "")) "reasoning" = true) :
    (processMutations job envKey env now1 now2).2 =
      [.openai { model := if p.model = "" then defaultTranslationModel else p.model,
                 messages := p.messages, reasoningEffort := p.reasoningEffort },
       .openai { model := if p.model = "" then defaultTranslationModel else p.model,
                 messages := p.messages }] ∧
    (∀ c : ProviderCompletion, env 1 = .ok c →
      (processTranslationJob job envKey env now1 now2).status = .completed ∧
      (processTranslationJob job envKey env now1 now2).result = some c) ∧
    (∀ e2 : JsError, env 1 = .error e2 →
      (processTranslationJob job envKey env now1 now2).status = .failed ∧
      (processTranslationJob job envKey env now1 now2).error =
        some (capturedJobError e2)) := by
  have htry : processTryBody job.payload job.anthropicKey envKey env =
      (env 1,
        [.openai { model := if p.model = "" then defaultTranslationModel else p.model,
                   messages := p.messages, reasoningEffort := p.reasoningEffort },
         .openai { model := if p.model = "" then defaultTranslationModel else p.model,
                   messages := p.messages }]) := by
    rw [hpayload]
    unfold processTryBody
    rcases hshape with h4 | hmsg
    · simp [JobPayload.model, hmodel, hfirst, heffort, h4]
    · simp [JobPayload.model, hmodel, hfirst, heffort, hmsg]
  refine ⟨?_, ?_, ?_⟩
  · simp [processMutations, htry]
  · intro c h1
    have hbody : (processTryBody job.payload job.anthropicKey envKey env).1 = .ok c := by
      rw [htry]; exact h1
    rw [processTranslationJob_of_ok job envKey env now1 now2 c hbody]
    simp
  · intro e2 h1
    have hbody : (processTryBody job.payload job.anthropicKey envKey env).1 = .error e2 := by
      rw [htry]; exact h1
    rw [processTranslationJob_of_error job envKey env now1 now2 e2 hbody]
    simp

/-- Witness for C9: a chat job with an effort hint whose first call is
rejected with status 400 retries once without the hint and completes. -/
theorem c9_reasoning_downgrade_witness :
    (processMutations chatJob none envDowngrade 5 9).2 =
      [.openai { model := "gpt-4.1", messages := [{ role := "user", content := "hi" }],
                 reasoningEffort := some "high" },
       .openai { model := "gpt-4.1", messages := [{ role := "user", content := "hi" }] }] ∧
    (processTranslationJob chatJob none envDowngrade 5 9).status = .completed ∧
    (processTranslationJob chatJob none envDowngrade 5 9).result = some { content := "done" } := by
  have h := c9_reasoning_downgrade chatJob
    { messages := [{ role := "user", content := "hi" }], model := "gpt-4.1",
      reasoningEffort := some "high" }
    none envDowngrade 5 9
    { status := some (.num 400), message := some "Unknown parameter reasoning_effort",
      stringRep := "Error: Unknown parameter reasoning_effort" }
    rfl (by decide) (by decide) rfl (Or.inl (by decide))
  exact ⟨h.1, (h.2.1 { content := "done" } rfl).1, (h.2.1 { content := "done" } rfl).2⟩

/-! ## C7: cancellation stops call starts and retries -/

theorem poolStep_closed_mono (s : PoolState) (e : PoolEvent) (s2 : PoolState)
    (h : poolStep s e = some s2) (hc : s.closed = true) : s2.closed = true := by
  cases e <;> simp only [poolStep] at h <;> (repeat' split at h) <;>
    first
      | (simp_all [setPhase]; done)
      | (injection h with h2; subst h2; simpa [setPhase] using hc)

theorem poolStep_callStart_open (s : PoolState) (e : PoolEvent) (s2 : PoolState)
    (h : poolStep s e = some s2) (hcall : isCallStart e = true) : s.closed = false := by
  cases e <;> simp only [isCallStart] at hcall <;>
    simp only [poolStep] at h <;> (repeat' split at h) <;> simp_all

theorem poolStep_retry_open (s : PoolState) (w : Nat) (s2 : PoolState)
    (h : poolStep s (.callErrRetry w) = some s2) : s.closed = false := by
  simp only [poolStep] at h
  (repeat' split at h) <;> simp_all

theorem runPool_closed_no_starts :
    ∀ (tr : List PoolEvent) (s s2 : PoolState), s.closed = true →
      runPool s tr = some s2 →
      (tr.filter isCallStart).length = 0 ∧ (tr.filter isRetryTransition).length = 0 := by
  intro tr
  induction tr with
  | nil => intro s s2 hc h; exact ⟨rfl, rfl⟩
  | cons e rest ih =>
      intro s s2 hc h
      rcases hstep : poolStep s e with _ | s3
      · rw [runPool, hstep] at h
        exact absurd h (by simp)
      · rw [runPool, hstep] at h
        have hc3 := poolStep_closed_mono s e s3 hstep hc
        have hrest := ih s3 s2 hc3 h
        cases e with
        | popStart w =>
            have hopen := poolStep_callStart_open s (.popStart w) s3 hstep rfl
            rw [hopen] at hc
            exact absurd hc (by simp)
        | wakeStart w =>
            have hopen := poolStep_callStart_open s (.wakeStart w) s3 hstep rfl
            rw [hopen] at hc
            exact absurd hc (by simp)
        | callErrRetry w =>
            have hopen := poolStep_retry_open s w s3 hstep
            rw [hopen] at hc
            exact absurd hc (by simp)
        | close =>
            simpa [List.filter_cons, isCallStart, isRetryTransition] using hrest
        | exitClosed w =>
            simpa [List.filter_cons, isCallStart, isRetryTransition] using hrest
        | exitEmpty w =>
            simpa [List.filter_cons, isCallStart, isRetryTransition] using hrest
        | callOk w =>
            simpa [List.filter_cons, isCallStart, isRetryTransition] using hrest
        | callErrAborted w =>
            simpa [List.filter_cons, isCallStart, isRetryTransition] using hrest
        | callErrTerminal w =>
            simpa [List.filter_cons, isCallStart, isRetryTransition] using hrest
        | wakeClosed w =>
            simpa [List.filter_cons, isCallStart, isRetryTransition] using hrest

theorem runPool_after_close :
    ∀ (tr : List PoolEvent) (s s2 : PoolState), runPool s tr = some s2 →
      callsAfterClose tr = 0 ∧ retriesAfterClose tr = 0 := by
  intro tr
  induction tr with
  | nil => intro s s2 h; exact ⟨rfl, rfl⟩
  | cons e rest ih =>
      intro s s2 h
      rcases hstep : poolStep s e with _ | s3
      · rw [runPool, hstep] at h
        exact absurd h (by simp)
      · rw [runPool, hstep] at h
        cases e with
        | close =>
            have hc3 : s3.closed = true := by
              simp only [poolStep] at hstep
              split at hstep
              · exact absurd hstep (by simp)
              · cases hstep
                rfl
            have hrest := runPool_closed_no_starts rest s3 s2 hc3 h
            exact ⟨hrest.1, hrest.2⟩
        | popStart w => exact ih s3 s2 h
        | exitClosed w => exact ih s3 s2 h
        | exitEmpty w => exact ih s3 s2 h
        | callOk w => exact ih s3 s2 h
        | callErrAborted w => exact ih s3 s2 h
        | callErrTerminal w => exact ih s3 s2 h
        | callErrRetry w => exact ih s3 s2 h
        | wakeStart w => exact ih s3 s2 h
        | wakeClosed w => exact ih s3 s2 h

/-- C7: along every valid execution trace of the /dub worker pool, no
upstream call is started and no failed attempt transitions into a retry
after the client-disconnect event — workers exit at their loop top, the
retry path is unreachable once requestClosed is set, and aborted in-flight
calls can only throw — so the number of upstream calls started after
disconnect is 0, bounded by the worker-pool width. -/
theorem c7_cancellation (segCount workerCount : Nat) (tr : List PoolEvent) (s2 : PoolState)
    (h : runPool (initPool segCount workerCount) tr = some s2) :
    callsAfterClose tr = 0 ∧ retriesAfterClose tr = 0 ∧
      callsAfterClose tr ≤ workerCount := by
  obtain ⟨h1, h2⟩ := runPool_after_close tr (initPool segCount workerCount) s2 h
  exact ⟨h1, h2, by omega⟩

/-- Witness for C7: a concrete valid trace of three segments and two
workers in which the disconnect happens with both workers mid-call. -/
theorem c7_cancellation_witness :
    callsAfterClose c7Trace = 0 ∧ retriesAfterClose c7Trace = 0 ∧
      callsAfterClose c7Trace ≤ 2 :=
  c7_cancellation 3 2 c7Trace c7FinalState (by decide)

end OpenAIRelay
